import Mathlib

/-!
Verification of the actor-network runtime semantics encoded by the generated
ActorSimulation DSL artifacts (OMNeT++ discrete-event modules under
`src/examples/omnetpp_*` and CAF actors under `src/examples/caf_*`).

The per-actor behavior (initialize / handleMessage / finish, make_behavior /
send_to_targets / schedule_next_send) is embedded from the generated C++
sources.  The discrete-event scheduler kernel itself (OMNeT++'s future event
set) is not part of the repository, so it is modelled from the spec (§4.1):
a pending set of timed events, earliest first, ties broken by insertion
(FIFO) order.
-/

/-- Opaque, stable actor identifier (spec §3). -/
abbrev ActorId := Nat

/-- Virtual time in milliseconds. -/
abbrev Time := Nat

/-- `ScheduleSpec` from spec §3: initial delay, period and burst count of a
self-scheduled actor.  In every generated example `initialDelay = period`
(e.g. `scheduleAt(simTime() + 1.0, selfMsg)` both in `initialize` and in the
reschedule step of `BurstGenerator.cc`). -/
structure ScheduleSpec where
  initialDelay : Time
  period : Time
  burstCount : Nat
deriving Repr, DecidableEq

/-- Which inbound message kinds make an actor run its `send_to_targets`
reaction.  Embedded from each generated actor's handler:
`ignore` is the OMNeT++ "Received message ... delete msg" else-branch and the
CAF skipped-unmatched-atom case; `anyKind` is the `caf_pipeline` stages'
wildcard `[=](caf::atom_value)` handler; `kinds ks` is a CAF behavior
matching only the named atoms (e.g. `server1_actor` matches `event_atom`). -/
inductive ReactSpec where
  | ignore
  | anyKind
  | kinds (ks : List String)
deriving Repr, DecidableEq

/-- Actor state (spec §3): ordered target list, optional schedule, reaction
behavior, send counter (`sendCount` in the OMNeT++ modules, `send_count_` in
the CAF actors), and whether the module's `selfMsg` pointer is non-null. -/
structure ActorState where
  targets : List ActorId
  schedule : Option ScheduleSpec
  react : ReactSpec
  sendCount : Nat
  selfMsg : Bool
deriving Repr, DecidableEq

/-- Scheduler event kinds: a module's self-message trigger, or a message
in flight to a destination actor. -/
inductive EvKind where
  | selfTrigger (a : ActorId)
  | message (dst : ActorId) (kind : String)
deriving Repr, DecidableEq

/-- An entry of the scheduler's pending set (spec §3 `Event`). -/
structure Event where
  fireTime : Time
  ev : EvKind
deriving Repr, DecidableEq

/-- Observable actions recorded while the simulation runs: a send attempt by
`src` towards `dst`, and the arrival (dispatch) of a message at `dst`. -/
inductive Act where
  | sent (src dst : ActorId) (t : Time)
  | arrived (dst : ActorId) (kind : String) (t : Time)
deriving Repr, DecidableEq

/-- Whole-system simulation state: actor states, the pending event set in
insertion order, the virtual clock and the recorded trace. -/
structure Sim where
  actors : ActorId → ActorState
  queue : List Event
  now : Time
  trace : List Act

/-- Replace one actor's state. -/
def setActor (s : Sim) (a : ActorId) (st : ActorState) : Sim :=
  { s with actors := fun b => if b = a then st else s.actors b }

/-- CAF `send_to_targets` / the inner gate loop of the OMNeT++ send pattern:
one message per target, in target-list order, incrementing the send counter
by 1 per message (`mail(msg_atom_v).send(target); send_count_++;`). Returns
the destinations in send order together with the updated counter. -/
def send_to_targets (ts : List ActorId) (c : Nat) : List ActorId × Nat :=
  match ts with
  | [] => ([], c)
  | t :: rest =>
    let (ms, c') := send_to_targets rest (c + 1)
    (t :: ms, c')

/-- The burst loop of the OMNeT++ send pattern
(`for (int i = 0; i < 10; i++) { for (int g = 0; g < 1; g++) { ... } }` in
`BurstGenerator.cc`): `burstCount` rounds of `send_to_targets`. -/
def fanOut (b : Nat) (ts : List ActorId) (c : Nat) : List ActorId × Nat :=
  match b with
  | 0 => ([], c)
  | Nat.succ b' =>
    let (ms, c') := send_to_targets ts c
    let (ms', c'') := fanOut b' ts c'
    (ms ++ ms', c'')

/-- The `isSelfMessage` branch of the generated `handleMessage`: if the actor
has a send pattern, run the fan-out (enqueuing one zero-delay message per
send, so it arrives at the current simulation time) and reschedule the self
message one period later; an actor with no pattern does nothing on a self
message (`Sink.cc`: "No send pattern").  The `period = 0` one-shot proviso is
from spec §4.2 (every generated example has a strictly positive period). -/
def handleSelfMsg (s : Sim) (a : ActorId) : Sim :=
  match (s.actors a).schedule with
  | none => s
  | some sp =>
    let st := s.actors a
    let (dsts, c') := fanOut sp.burstCount st.targets st.sendCount
    let msgs := dsts.map (fun d => Event.mk s.now (EvKind.message d "msg"))
    let sents := dsts.map (fun d => Act.sent a d s.now)
    let s1 := setActor s a { st with sendCount := c' }
    let s2 := { s1 with queue := s1.queue ++ msgs, trace := s1.trace ++ sents }
    if sp.period > 0 then
      { s2 with queue := s2.queue ++ [Event.mk (s.now + sp.period) (EvKind.selfTrigger a)] }
    else s2

/-- Does the actor's handler match an inbound message of kind `k`? -/
def reactMatches (r : ReactSpec) (k : String) : Bool :=
  match r with
  | .ignore => false
  | .anyKind => true
  | .kinds ks => ks.contains k

/-- The non-self branch of the generated `handleMessage` / the CAF behavior
on an inbound message: record the arrival; if the handler matches the kind,
run `send_to_targets` once (the default handlers have no burst loop) followed
by `schedule_next_send()`, which is a no-op for every actor reached by
inbound messages ("No automatic sending pattern"); otherwise the message is
logged and deleted (`delete msg;`), leaving the actor untouched. -/
def handleInbound (s : Sim) (a : ActorId) (k : String) : Sim :=
  let s0 := { s with trace := s.trace ++ [Act.arrived a k s.now] }
  if reactMatches (s0.actors a).react k then
    let st := s0.actors a
    let (dsts, c') := send_to_targets st.targets st.sendCount
    let msgs := dsts.map (fun d => Event.mk s0.now (EvKind.message d "msg"))
    let sents := dsts.map (fun d => Act.sent a d s0.now)
    let s1 := setActor s0 a { st with sendCount := c' }
    { s1 with queue := s1.queue ++ msgs, trace := s1.trace ++ sents }
  else s0

/-- Modelled from the spec: §4.1 scheduler selection (the OMNeT++ future
event set implementation is not in the repository).  Pops the earliest
pending event; ties (equal fire time) are broken by insertion order, i.e.
the scan keeps the earlier-inserted element on `≤`. -/
def popNext? : List Event → Option (Event × List Event)
  | [] => none
  | e :: rest =>
    match popNext? rest with
    | none => some (e, [])
    | some (e', rest') =>
      if e.fireTime ≤ e'.fireTime then some (e, rest) else some (e', e :: rest')

/-- Deliver one event: advance the clock to its fire time and run the
matching `handleMessage` branch. -/
def dispatch (s : Sim) (e : Event) : Sim :=
  match e.ev with
  | .selfTrigger a => handleSelfMsg { s with now := e.fireTime } a
  | .message a k => handleInbound { s with now := e.fireTime } a k

/-- One scheduler step: pop the earliest pending event (FIFO on ties) and
deliver it; a drained queue is a fixed point. -/
def step (s : Sim) : Sim :=
  match popNext? s.queue with
  | none => s
  | some (e, rest) => dispatch { s with queue := rest } e

/-- Run `n` scheduler steps. -/
def runSteps (n : Nat) (s : Sim) : Sim :=
  match n with
  | 0 => s
  | Nat.succ n' => runSteps n' (step s)

/-- One node of a topology: the per-actor configuration the generated `main`
wires up (`system.spawn<...>(std::vector<actor>{...})`). -/
structure ActorSetup where
  id : ActorId
  targets : List ActorId
  schedule : Option ScheduleSpec
  react : ReactSpec
deriving Repr, DecidableEq

/-- A topology is the list of wired actors (spec §4.4). -/
abbrev Topology := List ActorSetup

/-- State of an actor that is not part of the topology. -/
def defaultActor : ActorState :=
  { targets := [], schedule := none, react := .ignore, sendCount := 0, selfMsg := false }

/-- The generated `initialize` body: `sendCount = 0; selfMsg = nullptr;` and,
when a send pattern exists, `selfMsg = new cMessage(...)` (so the pointer is
non-null exactly for scheduled actors). -/
def initActor (st : ActorSetup) : ActorState :=
  { targets := st.targets, schedule := st.schedule, react := st.react,
    sendCount := 0, selfMsg := st.schedule.isSome }

/-- The initial self-trigger each scheduled module inserts in `initialize`
(`scheduleAt(simTime() + initialDelay, selfMsg)` at time 0). -/
def initEvents (topo : Topology) : List Event :=
  topo.filterMap (fun st =>
    st.schedule.map (fun sp => Event.mk sp.initialDelay (EvKind.selfTrigger st.id)))

/-- Build the initial simulation state of a topology. -/
def initSim (topo : Topology) : Sim :=
  { actors := fun a =>
      match topo.find? (fun st => st.id == a) with
      | some st => initActor st
      | none => defaultActor,
    queue := initEvents topo,
    now := 0,
    trace := [] }

/-- The generated `finish` body
(`if (selfMsg != nullptr) { cancelAndDelete(selfMsg); selfMsg = nullptr; }`):
cancel the actor's pending self-trigger — removing it from the pending set,
a no-op when it is not scheduled — and null the pointer.  The effect of
`cancelAndDelete` on the future event set is modelled from the spec (§5,
§7), the kernel not being in the repository. -/
def finish (s : Sim) (a : ActorId) : Sim :=
  let st := s.actors a
  if st.selfMsg then
    let s1 := setActor s a { st with selfMsg := false }
    { s1 with queue := s1.queue.filter (fun e => !(e.ev == EvKind.selfTrigger a)) }
  else s

/- ## Example topologies, wired as in the generated `main` files -/

/-- `omnetpp_burst` / `caf_burst`: actor 0 is the burst generator
(initial delay 1000 ms, period 1000 ms, burst 10, one target), actor 1 the
receive-only processor. -/
def burstTopo : Topology :=
  [⟨0, [1], some ⟨1000, 1000, 10⟩, .ignore⟩,
   ⟨1, [], none, .ignore⟩]

/-- `omnetpp_loadbalanced`: actor 0 is the load balancer (10 ms period,
burst 1, targets the three servers 1, 2, 3 in gate order); the servers and
the database (4) are receive-only modules. -/
def lbTopo : Topology :=
  [⟨0, [1, 2, 3], some ⟨10, 10, 1⟩, .ignore⟩,
   ⟨1, [4], none, .ignore⟩,
   ⟨2, [4], none, .ignore⟩,
   ⟨3, [4], none, .ignore⟩,
   ⟨4, [], none, .ignore⟩]

/-- `omnetpp_pubsub`: actor 0 is the publisher (100 ms period, burst 1,
targets the three subscribers 1, 2, 3); subscribers are receive-only with
empty target lists. -/
def pubsubTopo : Topology :=
  [⟨0, [1, 2, 3], some ⟨100, 100, 1⟩, .ignore⟩,
   ⟨1, [], none, .ignore⟩,
   ⟨2, [], none, .ignore⟩,
   ⟨3, [], none, .ignore⟩]

/-- `omnetpp_pipeline`: source (0, 20 ms period, burst 1) → stage1 (1) →
stage2 (2) → stage3 (3) → sink (4).  The stage modules are "Receive only":
their `handleMessage` logs and deletes every inbound message without
forwarding (`Stage1.cc`). -/
def omnetppPipeTopo : Topology :=
  [⟨0, [1], some ⟨20, 20, 1⟩, .ignore⟩,
   ⟨1, [2], none, .ignore⟩,
   ⟨2, [3], none, .ignore⟩,
   ⟨3, [4], none, .ignore⟩,
   ⟨4, [], none, .ignore⟩]

/-- `caf_pipeline`: the stage actors carry a wildcard
`[=](caf::atom_value)` handler that forwards to the next stage
(`stage1_actor.cpp`), and the sink matches only `event_atom` and has no
targets (`sink_actor.cpp`). -/
def cafPipeTopo : Topology :=
  [⟨0, [1], some ⟨20, 20, 1⟩, .ignore⟩,
   ⟨1, [2], none, .anyKind⟩,
   ⟨2, [3], none, .anyKind⟩,
   ⟨3, [4], none, .anyKind⟩,
   ⟨4, [], none, .kinds ["event"]⟩]

/- ## Basic lemmas about the fan-out -/

/-- `send_to_targets` emits the target list itself, in order, and advances
the counter by the number of targets. -/
theorem send_to_targets_eq (ts : List ActorId) (c : Nat) :
    send_to_targets ts c = (ts, c + ts.length) := by
  induction ts generalizing c with
  | nil => simp [send_to_targets]
  | cons t rest ih =>
    simp [send_to_targets, ih (c + 1)]
    omega

/-- Closed form of the burst loop: `b` rounds over the target list, and the
counter grows by exactly `b * |targets|`. -/
theorem fanOut_eq (b : Nat) (ts : List ActorId) (c : Nat) :
    fanOut b ts c = ((List.replicate b ts).flatten, c + b * ts.length) := by
  induction b generalizing c with
  | zero => simp [fanOut]
  | succ b' ih =>
    simp [fanOut, send_to_targets_eq, ih]
    constructor
    · rfl
    · ring

/-- Each round of the fan-out sends one message per target: a given target
occurring once in the list receives exactly `b` messages. -/
theorem fanOut_count (b : Nat) (ts : List ActorId) (c : Nat) (t : ActorId) :
    ((fanOut b ts c).1).count t = b * ts.count t := by
  rw [fanOut_eq]
  induction b with
  | zero => simp
  | succ b' ih =>
    simp [List.replicate_succ, List.count_append, ih]
    ring

/- ## Characterizations of the engine's transitions -/

/-- A self message for a module without a send pattern does nothing. -/
theorem handleSelfMsg_none (s : Sim) (a : ActorId)
    (h : (s.actors a).schedule = none) : handleSelfMsg s a = s := by
  unfold handleSelfMsg
  rw [h]

/-- Explicit form of one firing of a scheduled actor: the send counter grows
by `burstCount * |targets|`, one message event per send is appended in
fan-out order, the send attempts are recorded, and the self trigger is
re-armed one period later. -/
theorem handleSelfMsg_some (s : Sim) (a : ActorId) (sp : ScheduleSpec)
    (h : (s.actors a).schedule = some sp) :
    handleSelfMsg s a =
    { actors := fun b => if b = a then
        { s.actors a with
          sendCount := (s.actors a).sendCount + sp.burstCount * (s.actors a).targets.length }
        else s.actors b,
      queue := s.queue
        ++ ((List.replicate sp.burstCount (s.actors a).targets).flatten).map
             (fun d => Event.mk s.now (EvKind.message d "msg"))
        ++ (if 0 < sp.period then [Event.mk (s.now + sp.period) (EvKind.selfTrigger a)] else []),
      now := s.now,
      trace := s.trace
        ++ ((List.replicate sp.burstCount (s.actors a).targets).flatten).map
             (fun d => Act.sent a d s.now) } := by
  unfold handleSelfMsg
  rw [h]
  simp only [fanOut_eq, setActor]
  split
  · simp_all
  · simp_all

/-- An inbound message whose kind the actor's handler does not match is
logged and discarded: only the arrival is recorded. -/
theorem handleInbound_nomatch (s : Sim) (a : ActorId) (k : String)
    (h : reactMatches (s.actors a).react k = false) :
    handleInbound s a k = { s with trace := s.trace ++ [Act.arrived a k s.now] } := by
  unfold handleInbound
  simp [h]

/-- An inbound message whose kind the actor's handler matches triggers one
`send_to_targets` round, with no re-arm. -/
theorem handleInbound_match (s : Sim) (a : ActorId) (k : String)
    (h : reactMatches (s.actors a).react k = true) :
    handleInbound s a k =
    { actors := fun b => if b = a then
        { s.actors a with sendCount := (s.actors a).sendCount + (s.actors a).targets.length }
        else s.actors b,
      queue := s.queue
        ++ (s.actors a).targets.map (fun d => Event.mk s.now (EvKind.message d "msg")),
      now := s.now,
      trace := (s.trace ++ [Act.arrived a k s.now])
        ++ (s.actors a).targets.map (fun d => Act.sent a d s.now) } := by
  unfold handleInbound
  simp [h, send_to_targets_eq, setActor]

/-- The scheduler selection never returns an event on an empty pending set,
and conversely. -/
theorem popNext?_eq_none (q : List Event) : popNext? q = none ↔ q = [] := by
  cases q with
  | nil => simp [popNext?]
  | cons e rest =>
    simp only [popNext?]
    constructor
    · intro h
      cases hr : popNext? rest with
      | none => simp [hr] at h
      | some pr => cases pr with
        | mk e' rest' =>
          rw [hr] at h
          by_cases hle : e.fireTime ≤ e'.fireTime <;> simp [hle] at h
    · intro h
      cases h

/-- The selected event is one of the pending events. -/
theorem popNext?_mem (q : List Event) (e : Event) (rest : List Event)
    (h : popNext? q = some (e, rest)) : e ∈ q := by
  induction q generalizing e rest with
  | nil => simp [popNext?] at h
  | cons x xs ih =>
    simp only [popNext?] at h
    cases hr : popNext? xs with
    | none =>
      rw [hr] at h
      simp at h
      simp [h.1]
    | some pr =>
      obtain ⟨e', rest'⟩ := pr
      rw [hr] at h
      by_cases hle : x.fireTime ≤ e'.fireTime
      · simp [hle] at h
        simp [h.1]
      · simp [hle] at h
        have := ih e' rest' hr
        rw [← h.1]
        exact List.mem_cons_of_mem x this

/-- Popping removes exactly one occurrence of the selected event: the
pending set is a permutation of the selected event and the remainder, so no
two pending events are ever coalesced into one delivery. -/
theorem popNext?_perm (q : List Event) (e : Event) (rest : List Event)
    (h : popNext? q = some (e, rest)) : q.Perm (e :: rest) := by
  induction q generalizing e rest with
  | nil => simp [popNext?] at h
  | cons x xs ih =>
    simp only [popNext?] at h
    cases hr : popNext? xs with
    | none =>
      rw [hr] at h
      simp at h
      rw [(popNext?_eq_none xs).mp hr, h.1, h.2]
    | some pr =>
      obtain ⟨e', rest'⟩ := pr
      rw [hr] at h
      by_cases hle : x.fireTime ≤ e'.fireTime
      · simp [hle] at h
        rw [h.1, h.2]
      · simp [hle] at h
        have hperm := ih e' rest' hr
        obtain ⟨h1, h2⟩ := h
        subst h1
        subst h2
        exact (hperm.cons x).trans (List.Perm.swap e' x rest')

/-- If the head of the pending list is no later than every other pending
event, it is selected (FIFO on ties: the earliest-inserted wins). -/
theorem popNext?_head_min (e : Event) (q : List Event)
    (h : ∀ x ∈ q, e.fireTime ≤ x.fireTime) :
    popNext? (e :: q) = some (e, q) := by
  simp only [popNext?]
  cases hr : popNext? q with
  | none => rw [(popNext?_eq_none q).mp hr]
  | some pr =>
    obtain ⟨e', rest'⟩ := pr
    have := popNext?_mem q e' rest' hr
    simp [h e' this]

/-- One scheduler step, when the head of the pending list is earliest. -/
theorem step_head (s : Sim) (e : Event) (rest : List Event)
    (hq : s.queue = e :: rest)
    (h : ∀ x ∈ rest, e.fireTime ≤ x.fireTime) :
    step s = dispatch { s with queue := rest } e := by
  unfold step
  rw [hq, popNext?_head_min e rest h]

/- ## C1: Router fan-out counts and order -/

/-- Claim C1: a firing of an actor with burst count `b` and target list `ts`
delivers exactly `b` messages to each target, iterating the targets in
target-list order, and increments `sendCount` by 1 per message, so
`sendCount` grows by exactly `b * |ts|` per firing; the load balancer
(3 targets, burst 1) gains exactly 3 per firing, one message per target in
target-list order. -/
theorem claim_c1_router_fanout :
    (∀ (s : Sim) (a : ActorId) (sp : ScheduleSpec),
      (s.actors a).schedule = some sp →
      ((handleSelfMsg s a).actors a).sendCount
        = (s.actors a).sendCount + sp.burstCount * (s.actors a).targets.length) ∧
    (∀ (b : Nat) (ts : List ActorId) (c : Nat) (t : ActorId),
      ((fanOut b ts c).1).count t = b * ts.count t) ∧
    (∀ (ts : List ActorId) (c : Nat), (fanOut 1 ts c).1 = ts) ∧
    ((step (initSim lbTopo)).trace
        = [Act.sent 0 1 10, Act.sent 0 2 10, Act.sent 0 3 10] ∧
      ((step (initSim lbTopo)).actors 0).sendCount
        = ((initSim lbTopo).actors 0).sendCount + 3) := by
  refine ⟨?_, ?_, ?_, ?_, ?_⟩
  · intro s a sp h
    rw [handleSelfMsg_some s a sp h]
    simp
  · intro b ts c t
    exact fanOut_count b ts c t
  · intro ts c
    simp [fanOut_eq]
  · decide
  · decide

/-- Witness for C1: the first conjunct applied to the wired load balancer,
whose schedule hypothesis holds by evaluation. -/
theorem claim_c1_router_fanout_witness :
    ((handleSelfMsg (initSim lbTopo) 0).actors 0).sendCount
      = ((initSim lbTopo).actors 0).sendCount
        + (ScheduleSpec.mk 10 10 1).burstCount
          * ((initSim lbTopo).actors 0).targets.length :=
  claim_c1_router_fanout.1 (initSim lbTopo) 0 (ScheduleSpec.mk 10 10 1) (by decide)

/- ## Static fields are never mutated by a step -/

/-- Delivering one event only ever changes an actor's send counter:
targets, schedule, reaction behavior and the self-message pointer are
untouched (spec §3: targets fixed after wiring). -/
theorem dispatch_static (s : Sim) (e : Event) (b : ActorId) :
    ((dispatch s e).actors b).targets = (s.actors b).targets ∧
    ((dispatch s e).actors b).schedule = (s.actors b).schedule ∧
    ((dispatch s e).actors b).react = (s.actors b).react ∧
    ((dispatch s e).actors b).selfMsg = (s.actors b).selfMsg := by
  obtain ⟨ft, ev⟩ := e
  cases ev with
  | selfTrigger a =>
    simp only [dispatch]
    cases hs : (s.actors a).schedule with
    | none =>
      rw [handleSelfMsg_none { s with now := ft } a hs]
      exact ⟨rfl, rfl, rfl, rfl⟩
    | some sp =>
      rw [handleSelfMsg_some { s with now := ft } a sp hs]
      by_cases hba : b = a <;> simp [hba]
  | message a k =>
    simp only [dispatch]
    by_cases hm : reactMatches (s.actors a).react k
    · rw [handleInbound_match { s with now := ft } a k hm]
      by_cases hba : b = a <;> simp [hba]
    · rw [handleInbound_nomatch { s with now := ft } a k (Bool.not_eq_true _ ▸ hm)]
      exact ⟨rfl, rfl, rfl, rfl⟩

/-- Lift of `dispatch_static` to one scheduler step. -/
theorem step_static (s : Sim) (b : ActorId) :
    ((step s).actors b).targets = (s.actors b).targets ∧
    ((step s).actors b).schedule = (s.actors b).schedule ∧
    ((step s).actors b).react = (s.actors b).react ∧
    ((step s).actors b).selfMsg = (s.actors b).selfMsg := by
  unfold step
  cases hp : popNext? s.queue with
  | none => exact ⟨rfl, rfl, rfl, rfl⟩
  | some pr =>
    obtain ⟨e, rest⟩ := pr
    exact dispatch_static { s with queue := rest } e b

/-- Count of send attempts recorded for sender `a`. -/
def countSentBy (a : ActorId) (tr : List Act) : Nat :=
  tr.countP (fun act => match act with
    | .sent src _ _ => src == a
    | _ => false)

theorem countSentBy_append (a : ActorId) (t1 t2 : List Act) :
    countSentBy a (t1 ++ t2) = countSentBy a t1 + countSentBy a t2 := by
  simp [countSentBy, List.countP_append]

theorem countSentBy_sent_map (a : ActorId) (ds : List ActorId) (t : Time) :
    countSentBy a (ds.map (fun d => Act.sent a d t)) = ds.length := by
  induction ds with
  | nil => simp [countSentBy]
  | cons d ds ih =>
    simp only [List.map_cons, countSentBy, List.countP_cons] at ih ⊢
    simp [ih]

theorem countSentBy_sent_map_ne (a b : ActorId) (ds : List ActorId) (t : Time)
    (h : ¬ b = a) :
    countSentBy b (ds.map (fun d => Act.sent a d t)) = 0 := by
  have hab : (a == b) = false := by
    refine beq_eq_false_iff_ne.mpr ?_
    exact fun hc => h hc.symm
  induction ds with
  | nil => simp [countSentBy]
  | cons d ds ih =>
    simp only [List.map_cons, countSentBy, List.countP_cons] at ih ⊢
    simp [ih, hab]

theorem countSentBy_arrived (b : ActorId) (dst : ActorId) (k : String) (t : Time) :
    countSentBy b [Act.arrived dst k t] = 0 := by
  simp [countSentBy, List.countP_cons]

theorem countSentBy_cons_arrived (b : ActorId) (dst : ActorId) (k : String)
    (t : Time) (l : List Act) :
    countSentBy b (Act.arrived dst k t :: l) = countSentBy b l := by
  simp [countSentBy, List.countP_cons]

theorem countSentBy_flatten_replicate (b : ActorId) (n : Nat) (l : List Act) :
    countSentBy b ((List.replicate n l).flatten) = n * countSentBy b l := by
  induction n with
  | zero => simp [countSentBy]
  | succ n ih =>
    simp only [List.replicate_succ, List.flatten_cons, countSentBy_append, ih]
    ring

/-- The accounting invariant behind C10: every actor's `sendCount` equals
the number of send attempts it has recorded so far. -/
def SendAccounting (s : Sim) : Prop :=
  ∀ a, (s.actors a).sendCount = countSentBy a s.trace

theorem sendAccounting_dispatch (s : Sim) (e : Event) (h : SendAccounting s) :
    SendAccounting (dispatch s e) := by
  intro b
  obtain ⟨ft, ev⟩ := e
  cases ev with
  | selfTrigger a =>
    simp only [dispatch]
    cases hs : (s.actors a).schedule with
    | none =>
      rw [handleSelfMsg_none { s with now := ft } a hs]
      exact h b
    | some sp =>
      rw [handleSelfMsg_some { s with now := ft } a sp hs]
      by_cases hba : b = a
      · subst hba
        simp [countSentBy_append, countSentBy_flatten_replicate,
          countSentBy_sent_map, h b, Nat.mul_comm]
      · simp [hba, countSentBy_append, countSentBy_flatten_replicate,
          countSentBy_sent_map_ne _ _ _ _ hba, h b]
  | message a k =>
    simp only [dispatch]
    by_cases hm : reactMatches (s.actors a).react k
    · rw [handleInbound_match { s with now := ft } a k hm]
      by_cases hba : b = a
      · subst hba
        simp [countSentBy_append, countSentBy_sent_map, countSentBy_arrived,
          countSentBy_cons_arrived, h b]
      · simp [hba, countSentBy_append, countSentBy_sent_map_ne _ _ _ _ hba,
          countSentBy_arrived, countSentBy_cons_arrived, h b]
    · rw [handleInbound_nomatch { s with now := ft } a k (Bool.not_eq_true _ ▸ hm)]
      simp [countSentBy_append, countSentBy_arrived, h b]

theorem sendAccounting_step (s : Sim) (h : SendAccounting s) :
    SendAccounting (step s) := by
  unfold step
  cases hp : popNext? s.queue with
  | none => exact h
  | some pr =>
    obtain ⟨e, rest⟩ := pr
    exact sendAccounting_dispatch { s with queue := rest } e h

/- ## Teardown (`finish`) lemmas -/

/-- `finish` with a null `selfMsg` pointer takes the else-branch and leaves
the whole state unchanged — a total function, never an error. -/
theorem finish_noop (s : Sim) (a : ActorId) (h : (s.actors a).selfMsg = false) :
    finish s a = s := by
  unfold finish
  simp [h]

/-- After `finish`, the actor's `selfMsg` pointer is null. -/
theorem finish_selfMsg (s : Sim) (a : ActorId) :
    ((finish s a).actors a).selfMsg = false := by
  unfold finish
  by_cases h : (s.actors a).selfMsg <;> simp [h, setActor]

/-- `finish` only cancels the self message; it never touches any send
counter (it merely reads `sendCount` for the final report line). -/
theorem finish_sendCount (s : Sim) (a b : ActorId) :
    ((finish s a).actors b).sendCount = (s.actors b).sendCount := by
  unfold finish
  by_cases h : (s.actors a).selfMsg
  · by_cases hba : b = a <;> simp [h, hba, setActor]
  · simp [h]

/-- `finish` leaves the recorded trace unchanged. -/
theorem finish_trace (s : Sim) (a : ActorId) :
    (finish s a).trace = s.trace := by
  unfold finish
  by_cases h : (s.actors a).selfMsg <;> simp [h, setActor]

/- ## C8: cancellation is idempotent -/

/-- Claim C8: cancelling an actor's pending timers is idempotent — `finish`
twice from any state equals `finish` once — and cancelling an
already-cancelled (null `selfMsg`) timer is a no-op, never an error. -/
theorem claim_c8_cancel_idempotent :
    (∀ (s : Sim) (a : ActorId), finish (finish s a) a = finish s a) ∧
    (∀ (s : Sim) (a : ActorId), (s.actors a).selfMsg = false → finish s a = s) := by
  constructor
  · intro s a
    exact finish_noop (finish s a) a (finish_selfMsg s a)
  · intro s a h
    exact finish_noop s a h

/-- Witness for C8: cancelling the never-armed processor of the burst
topology is a no-op. -/
theorem claim_c8_cancel_idempotent_witness :
    finish (initSim burstTopo) 1 = initSim burstTopo :=
  claim_c8_cancel_idempotent.2 (initSim burstTopo) 1 (by decide)

/- ## C10: sendCount lifecycle -/

theorem sendAccounting_runSteps (n : Nat) (s : Sim) (h : SendAccounting s) :
    SendAccounting (runSteps n s) := by
  induction n generalizing s with
  | zero => exact h
  | succ n ih => exact ih (step s) (sendAccounting_step s h)

theorem sendAccounting_init (topo : Topology) : SendAccounting (initSim topo) := by
  intro a
  show (match topo.find? (fun st : ActorSetup => st.id == a) with
        | some st => initActor st
        | none => defaultActor).sendCount = countSentBy a []
  cases topo.find? (fun st : ActorSetup => st.id == a) <;> rfl

/-- Claim C10: `sendCount` is 0 at initialization, `finish` never modifies
it, and the value it reports at teardown equals the number of send attempts
the actor made during its whole lifetime (the sends it recorded in the
trace). -/
theorem claim_c10_sendcount_lifecycle :
    (∀ (topo : Topology) (a : ActorId), ((initSim topo).actors a).sendCount = 0) ∧
    (∀ (s : Sim) (a b : ActorId),
      ((finish s a).actors b).sendCount = (s.actors b).sendCount) ∧
    (∀ (topo : Topology) (n : Nat) (a b : ActorId),
      ((finish (runSteps n (initSim topo)) b).actors a).sendCount
        = countSentBy a (runSteps n (initSim topo)).trace) := by
  refine ⟨?_, ?_, ?_⟩
  · intro topo a
    show (match topo.find? (fun st : ActorSetup => st.id == a) with
          | some st => initActor st
          | none => defaultActor).sendCount = 0
    cases topo.find? (fun st : ActorSetup => st.id == a) <;> rfl
  · intro s a b
    exact finish_sendCount s a b
  · intro topo n a b
    rw [finish_sendCount]
    exact sendAccounting_runSteps n (initSim topo) (sendAccounting_init topo) a

/- ## C9: unknown message kinds are ignored -/

/-- Claim C9: receiving an inbound message of an unknown/unrecognized kind
is ignored and is not an error: the actors' states (including `sendCount`)
are unchanged, no event is enqueued, and at the scheduler level the only
effect of dispatching such a message is consuming its own queue entry. -/
theorem claim_c9_unknown_kind_ignored :
    (∀ (s : Sim) (a : ActorId) (k : String),
      reactMatches (s.actors a).react k = false →
      (handleInbound s a k).actors = s.actors ∧
      (handleInbound s a k).queue = s.queue) ∧
    (∀ (s : Sim) (e : Event) (rest : List Event) (a : ActorId) (k : String),
      popNext? s.queue = some (e, rest) →
      e.ev = EvKind.message a k →
      reactMatches (s.actors a).react k = false →
      (step s).actors = s.actors ∧ (step s).queue = rest) := by
  constructor
  · intro s a k h
    rw [handleInbound_nomatch s a k h]
    exact ⟨rfl, rfl⟩
  · intro s e rest a k hp hev h
    have hstep : step s = dispatch { s with queue := rest } e := by
      unfold step
      rw [hp]
    rw [hstep]
    obtain ⟨ft, kk⟩ := e
    change kk = EvKind.message a k at hev
    subst hev
    simp only [dispatch]
    rw [handleInbound_nomatch { s with queue := rest, now := ft } a k h]
    exact ⟨rfl, rfl⟩

/-- Witness for C9: a pub/sub subscriber receiving a message of an unknown
kind keeps all state unchanged. -/
theorem claim_c9_unknown_kind_ignored_witness :
    (handleInbound (initSim pubsubTopo) 1 "bogus").actors = (initSim pubsubTopo).actors ∧
    (handleInbound (initSim pubsubTopo) 1 "bogus").queue = (initSim pubsubTopo).queue :=
  claim_c9_unknown_kind_ignored.1 (initSim pubsubTopo) 1 "bogus" (by decide)

/- ## C6: schedule-free actors never self-trigger -/

/-- The C6 invariant: every pending self-trigger belongs to an actor that
actually has a schedule. -/
def SelfTriggersScheduled (s : Sim) : Prop :=
  ∀ e, e ∈ s.queue → ∀ a, e.ev = EvKind.selfTrigger a → (s.actors a).schedule ≠ none

theorem selfTriggersScheduled_dispatch (s : Sim) (ev : Event)
    (h : SelfTriggersScheduled s) : SelfTriggersScheduled (dispatch s ev) := by
  obtain ⟨ft, kk⟩ := ev
  cases kk with
  | selfTrigger a =>
    simp only [dispatch]
    cases hs : (s.actors a).schedule with
    | none =>
      rw [handleSelfMsg_none { s with now := ft } a hs]
      exact fun e he b hb => h e he b hb
    | some sp =>
      rw [handleSelfMsg_some { s with now := ft } a sp hs]
      intro e he b hb
      simp only [List.mem_append] at he
      rcases he with (he | he) | he
      · have hold := h e he b hb
        by_cases hba : b = a
        · subst hba
          simp [hs]
        · simpa [hba] using hold
      · simp only [List.mem_map] at he
        obtain ⟨d, _, rfl⟩ := he
        simp at hb
      · by_cases hp : 0 < sp.period
        · rw [if_pos hp] at he
          simp only [List.mem_singleton] at he
          subst he
          simp only at hb
          cases hb
          simp [hs]
        · simp [hp] at he
  | message a kk =>
    simp only [dispatch]
    by_cases hm : reactMatches (s.actors a).react kk
    · rw [handleInbound_match { s with now := ft } a kk hm]
      intro e he b hb
      simp only [List.mem_append] at he
      rcases he with he | he
      · have hold := h e he b hb
        by_cases hba : b = a
        · subst hba
          simpa using hold
        · simpa [hba] using hold
      · simp only [List.mem_map] at he
        obtain ⟨d, _, rfl⟩ := he
        simp at hb
    · rw [handleInbound_nomatch { s with now := ft } a kk (Bool.not_eq_true _ ▸ hm)]
      exact fun e he b hb => h e he b hb

theorem selfTriggersScheduled_step (s : Sim) (h : SelfTriggersScheduled s) :
    SelfTriggersScheduled (step s) := by
  unfold step
  cases hp : popNext? s.queue with
  | none => exact h
  | some pr =>
    obtain ⟨e, rest⟩ := pr
    have hperm := popNext?_perm s.queue e rest hp
    apply selfTriggersScheduled_dispatch
    intro x hx b hb
    exact h x (hperm.symm.subset (List.mem_cons_of_mem e hx)) b hb

/-- With distinct actor ids, `find?` on a wired topology returns the listed
setup itself. -/
theorem find?_of_nodup (topo : Topology) (st : ActorSetup)
    (hnd : (topo.map (fun x => x.id)).Nodup) (hmem : st ∈ topo) :
    topo.find? (fun x : ActorSetup => x.id == st.id) = some st := by
  induction topo with
  | nil => cases hmem
  | cons hd tl ih =>
    simp only [List.map_cons, List.nodup_cons] at hnd
    rcases List.mem_cons.mp hmem with rfl | hmem'
    · simp [List.find?]
    · have hne : ¬ hd.id = st.id := by
        intro hc
        exact hnd.1 (hc ▸ List.mem_map_of_mem (fun x => x.id) hmem')
      rw [List.find?]
      simp only [beq_eq_false_iff_ne.mpr hne]
      exact ih hnd.2 hmem'

theorem selfTriggersScheduled_init (topo : Topology)
    (hnd : (topo.map (fun st => st.id)).Nodup) :
    SelfTriggersScheduled (initSim topo) := by
  intro e he a hev
  simp only [initSim, initEvents, List.mem_filterMap] at he
  obtain ⟨st, hst, hmap⟩ := he
  cases hsch : st.schedule with
  | none => rw [hsch] at hmap; cases hmap
  | some sp =>
    rw [hsch] at hmap
    rw [Option.map_some'] at hmap
    injection hmap with hmap
    subst hmap
    change EvKind.selfTrigger st.id = EvKind.selfTrigger a at hev
    cases hev
    show (match topo.find? (fun x : ActorSetup => x.id == st.id) with
          | some st => initActor st
          | none => defaultActor).schedule ≠ none
    rw [find?_of_nodup topo st hnd hst]
    simp [initActor, hsch]

/-- Claim C6: an actor whose schedule is `none` never self-triggers: in any
reachable state of a topology with distinct actor ids, every pending
self-trigger event belongs to an actor with a schedule, so no operation ever
inserts a timer for a schedule-free actor (such an actor only reacts to
inbound messages). -/
theorem claim_c6_unscheduled_never_selftriggers
    (topo : Topology) (hnd : (topo.map (fun st => st.id)).Nodup)
    (n : Nat) (e : Event) (he : e ∈ (runSteps n (initSim topo)).queue)
    (a : ActorId) (hev : e.ev = EvKind.selfTrigger a) :
    ((runSteps n (initSim topo)).actors a).schedule ≠ none := by
  have hrun : ∀ (m : Nat) (s : Sim), SelfTriggersScheduled s →
      SelfTriggersScheduled (runSteps m s) := by
    intro m
    induction m with
    | zero => exact fun s hs => hs
    | succ m ih => exact fun s hs => ih (step s) (selfTriggersScheduled_step s hs)
  exact hrun n (initSim topo) (selfTriggersScheduled_init topo hnd) e he a hev

/-- Witness for C6: the initial burst topology state, whose only pending
event is the generator's own self trigger. -/
theorem claim_c6_unscheduled_never_selftriggers_witness :
    ((runSteps 0 (initSim burstTopo)).actors 0).schedule ≠ none :=
  claim_c6_unscheduled_never_selftriggers burstTopo (by decide) 0
    (Event.mk 1000 (EvKind.selfTrigger 0)) (by decide) 0 rfl

/- ## Empty-target actors never send -/

theorem dispatch_sendCount_emptyTargets (s : Sim) (e : Event) (b : ActorId)
    (h : (s.actors b).targets = []) :
    ((dispatch s e).actors b).sendCount = (s.actors b).sendCount := by
  obtain ⟨ft, kk⟩ := e
  cases kk with
  | selfTrigger a =>
    simp only [dispatch]
    cases hs : (s.actors a).schedule with
    | none => rw [handleSelfMsg_none { s with now := ft } a hs]
    | some sp =>
      rw [handleSelfMsg_some { s with now := ft } a sp hs]
      by_cases hba : b = a
      · subst hba
        simp [h]
      · simp [hba]
  | message a k =>
    simp only [dispatch]
    by_cases hm : reactMatches (s.actors a).react k
    · rw [handleInbound_match { s with now := ft } a k hm]
      by_cases hba : b = a
      · subst hba
        simp [h]
      · simp [hba]
    · rw [handleInbound_nomatch { s with now := ft } a k (Bool.not_eq_true _ ▸ hm)]

theorem step_sendCount_emptyTargets (s : Sim) (b : ActorId)
    (h : (s.actors b).targets = []) :
    ((step s).actors b).sendCount = (s.actors b).sendCount := by
  unfold step
  cases hp : popNext? s.queue with
  | none => rfl
  | some pr =>
    obtain ⟨e, rest⟩ := pr
    exact dispatch_sendCount_emptyTargets { s with queue := rest } e b h

/-- An actor wired with an empty target list never accumulates sends, over
any number of scheduler steps. -/
theorem runSteps_sendCount_emptyTargets (n : Nat) (s : Sim) (b : ActorId)
    (h : (s.actors b).targets = []) :
    ((runSteps n s).actors b).sendCount = (s.actors b).sendCount := by
  induction n generalizing s with
  | zero => rfl
  | succ n ih =>
    show ((runSteps n (step s)).actors b).sendCount = _
    have ht : ((step s).actors b).targets = [] := (step_static s b).1.trans h
    exact (ih (step s) ht).trans (step_sendCount_emptyTargets s b h)

/- ## C7: empty-target firings are unobservable; pub/sub example -/

/-- Claim C7: a firing of an actor with an empty target list changes no
send counter and delivers nothing (no send is even recorded); in the
pub/sub topology every publisher firing delivers exactly one message to each
of the three subscribers, in order, while the subscribers' `sendCount` stays
0 forever. -/
theorem claim_c7_empty_targets_frame :
    (∀ (b c : Nat), fanOut b [] c = ([], c)) ∧
    (∀ (s : Sim) (a b : ActorId), (s.actors a).targets = [] →
      ((handleSelfMsg s a).actors b).sendCount = (s.actors b).sendCount ∧
      (handleSelfMsg s a).trace = s.trace) ∧
    (∀ (n : Nat),
      ((runSteps n (initSim pubsubTopo)).actors 1).sendCount = 0 ∧
      ((runSteps n (initSim pubsubTopo)).actors 2).sendCount = 0 ∧
      ((runSteps n (initSim pubsubTopo)).actors 3).sendCount = 0) ∧
    ((runSteps 4 (initSim pubsubTopo)).trace
      = [Act.sent 0 1 100, Act.sent 0 2 100, Act.sent 0 3 100,
         Act.arrived 1 "msg" 100, Act.arrived 2 "msg" 100,
         Act.arrived 3 "msg" 100]) := by
  refine ⟨?_, ?_, ?_, ?_⟩
  · intro b c
    rw [fanOut_eq]
    simp
  · intro s a b h
    cases hs : (s.actors a).schedule with
    | none =>
      rw [handleSelfMsg_none s a hs]
      exact ⟨rfl, rfl⟩
    | some sp =>
      rw [handleSelfMsg_some s a sp hs]
      constructor
      · by_cases hba : b = a
        · subst hba
          simp [h]
        · simp [hba]
      · simp [h]
  · intro n
    refine ⟨?_, ?_, ?_⟩
    · exact (runSteps_sendCount_emptyTargets n (initSim pubsubTopo) 1 (by decide)).trans
        (by decide)
    · exact (runSteps_sendCount_emptyTargets n (initSim pubsubTopo) 2 (by decide)).trans
        (by decide)
    · exact (runSteps_sendCount_emptyTargets n (initSim pubsubTopo) 3 (by decide)).trans
        (by decide)
  · decide

/-- Witness for C7: the never-sending subscriber 1 of the pub/sub topology
keeps its counter across a (no-op) firing attempt. -/
theorem claim_c7_empty_targets_frame_witness :
    ((handleSelfMsg (initSim pubsubTopo) 1).actors 1).sendCount
      = ((initSim pubsubTopo).actors 1).sendCount ∧
    (handleSelfMsg (initSim pubsubTopo) 1).trace = (initSim pubsubTopo).trace :=
  claim_c7_empty_targets_frame.2.1 (initSim pubsubTopo) 1 1 (by decide)

/- ## C3: inbound reaction and pipeline propagation -/

/-- Counterexample to C3 as stated: in the OMNeT++ pipeline, stage 1 has no
schedule and one target (stage 2), yet after the source's first firing has
been delivered to it (the arrival at time 20 is in the trace), stage 1 has
performed no fan-out: its `sendCount` is still 0, it recorded no send, and
no message for stage 2 was ever enqueued.  The stage modules are
"Receive only": `Stage1::handleMessage` logs and deletes every inbound
message (`Stage1.cc`), so a single upstream firing does NOT produce one
delivery at each stage. -/
theorem claim_c3_counterexample :
    Act.arrived 1 "msg" 20 ∈ (runSteps 2 (initSim omnetppPipeTopo)).trace ∧
    ((runSteps 2 (initSim omnetppPipeTopo)).actors 1).schedule = none ∧
    ((runSteps 2 (initSim omnetppPipeTopo)).actors 1).targets = [2] ∧
    ((runSteps 2 (initSim omnetppPipeTopo)).actors 1).sendCount = 0 ∧
    countSentBy 1 (runSteps 2 (initSim omnetppPipeTopo)).trace = 0 ∧
    (∀ e ∈ (runSteps 2 (initSim omnetppPipeTopo)).queue,
      e.ev ≠ EvKind.message 2 "msg") := by
  decide

/-- Claim C3 (amended): an actor without a schedule performs the fan-out on
an inbound message only when its handler matches the message's kind — as the
`caf_pipeline` stages' wildcard handlers do — and such a reaction enqueues
message events only, never a self trigger (no re-arm).  In the CAF pipeline
a single upstream firing produces exactly one delivery at each stage in
chain order, and the sink (empty targets) never increments its `sendCount`;
in the OMNeT++ pipeline, the "Receive only" stages discard inbound messages,
so propagation stops at stage 1. -/
theorem claim_c3_amended_pipeline :
    (∀ (s : Sim) (a : ActorId) (k : String),
      reactMatches (s.actors a).react k = true →
      ((handleInbound s a k).actors a).sendCount
        = (s.actors a).sendCount + (s.actors a).targets.length) ∧
    (∀ (s : Sim) (a : ActorId) (k : String) (e : Event),
      e ∈ (handleInbound s a k).queue →
      e ∈ s.queue ∨ ∃ d, e.ev = EvKind.message d "msg") ∧
    ((runSteps 5 (initSim cafPipeTopo)).trace
      = [Act.sent 0 1 20, Act.arrived 1 "msg" 20,
         Act.sent 1 2 20, Act.arrived 2 "msg" 20,
         Act.sent 2 3 20, Act.arrived 3 "msg" 20,
         Act.sent 3 4 20, Act.arrived 4 "msg" 20]) ∧
    (∀ (n : Nat), ((runSteps n (initSim cafPipeTopo)).actors 4).sendCount = 0) := by
  refine ⟨?_, ?_, ?_, ?_⟩
  · intro s a k h
    rw [handleInbound_match s a k h]
    simp
  · intro s a k e he
    by_cases hm : reactMatches (s.actors a).react k
    · rw [handleInbound_match s a k hm] at he
      simp only [List.mem_append] at he
      rcases he with he | he
      · exact Or.inl he
      · simp only [List.mem_map] at he
        obtain ⟨d, _, rfl⟩ := he
        exact Or.inr ⟨d, rfl⟩
    · rw [handleInbound_nomatch s a k (Bool.not_eq_true _ ▸ hm)] at he
      exact Or.inl he
  · decide
  · intro n
    exact (runSteps_sendCount_emptyTargets n (initSim cafPipeTopo) 4 (by decide)).trans
      (by decide)

/-- Witness for the amended C3: a CAF pipeline stage reacting to an inbound
message fans out to its one target. -/
theorem claim_c3_amended_pipeline_witness :
    ((handleInbound (initSim cafPipeTopo) 1 "msg").actors 1).sendCount
      = ((initSim cafPipeTopo).actors 1).sendCount
        + ((initSim cafPipeTopo).actors 1).targets.length :=
  claim_c3_amended_pipeline.1 (initSim cafPipeTopo) 1 "msg" (by decide)

/- ## C4: the extension hook runs exactly once, before fan-out -/

/-- The observable steps of one behavior turn of a generated CAF actor. -/
inductive FireStep where
  | hookCall
  | sendTo (dst : ActorId)
  | scheduleNext
deriving Repr, DecidableEq

/-- The body of the generated CAF behavior lambda
(`burst_generator_actor::make_behavior`, `publisher_actor::make_behavior`):
`callbacks_->on_batch(); send_to_targets(); schedule_next_send();` — the
hook takes no arguments and returns nothing; it runs first, then one send
per target, then the re-arm.  The generated code wraps the hook in no
try/catch, so an error escaping the hook aborts the turn before any send
and propagates to the caller. -/
def make_behavior_turn (hookResult : Except String Unit)
    (targets : List ActorId) : Except String (List FireStep) :=
  match hookResult with
  | .error e => .error e
  | .ok _ =>
    .ok (FireStep.hookCall :: (targets.map FireStep.sendTo ++ [FireStep.scheduleNext]))

/-- Claim C4: on every firing the hook is invoked exactly once, before the
fan-out to the targets; a failure raised by the hook propagates as the
result of that turn (no send happens and the error is not swallowed). -/
theorem claim_c4_hook_once_before_fanout :
    (∀ (ts : List ActorId) (tr : List FireStep),
      make_behavior_turn (Except.ok ()) ts = Except.ok tr →
      tr.count FireStep.hookCall = 1 ∧
      tr.head? = some FireStep.hookCall ∧
      tr.filter (fun st => match st with
        | FireStep.sendTo _ => true
        | _ => false) = ts.map FireStep.sendTo) ∧
    (∀ (e : String) (ts : List ActorId),
      make_behavior_turn (Except.error e) ts = Except.error e) := by
  constructor
  · intro ts tr h
    injection h with h
    subst h
    refine ⟨?_, rfl, ?_⟩
    · rw [List.count_cons_self]
      have hz : (ts.map FireStep.sendTo ++ [FireStep.scheduleNext]).count
          FireStep.hookCall = 0 := by
        rw [List.count_eq_zero]
        intro hmem
        rcases List.mem_append.mp hmem with hm | hm
        · obtain ⟨d, _, hd⟩ := List.mem_map.mp hm
          cases hd
        · simp at hm
      rw [hz]
    · rw [List.filter_cons]
      simp only [List.filter_append]
      rw [List.filter_map]
      have h1 : List.filter ((fun st => match st with
          | FireStep.sendTo _ => true
          | _ => false) ∘ FireStep.sendTo) ts = ts := by
        apply List.filter_eq_self.mpr
        intro x _
        rfl
      rw [h1]
      simp
  · intro e ts
    rfl

/-- Witness for C4: a concrete two-target turn. -/
theorem claim_c4_hook_once_before_fanout_witness :
    ([FireStep.hookCall, FireStep.sendTo 1, FireStep.sendTo 2,
        FireStep.scheduleNext] : List FireStep).count FireStep.hookCall = 1 ∧
    ([FireStep.hookCall, FireStep.sendTo 1, FireStep.sendTo 2,
        FireStep.scheduleNext] : List FireStep).head? = some FireStep.hookCall ∧
    ([FireStep.hookCall, FireStep.sendTo 1, FireStep.sendTo 2,
        FireStep.scheduleNext] : List FireStep).filter (fun st => match st with
      | FireStep.sendTo _ => true
      | _ => false) = ([1, 2] : List ActorId).map FireStep.sendTo :=
  claim_c4_hook_once_before_fanout.1 [1, 2]
    [FireStep.hookCall, FireStep.sendTo 1, FireStep.sendTo 2, FireStep.scheduleNext] rfl

/- ## C5: the discrete-event model is deterministic -/

/-- Modelled from the spec: the §4.1 selection rule as a relation.  A
dispatchable event splits the pending list (kept in insertion order) into a
prefix of strictly later events and a suffix of no-earlier events: the
earliest fire time wins and equal fire times are broken by insertion (FIFO)
order. -/
def PopSpecP (q : List Event) (e : Event) (rest : List Event) : Prop :=
  ∃ l r, q = l ++ e :: r ∧ rest = l ++ r ∧
    (∀ x ∈ l, e.fireTime < x.fireTime) ∧
    (∀ x ∈ r, e.fireTime ≤ x.fireTime)

/-- A run of the discrete-event loop, recorded as the list of dispatched
events: each step dispatches an event selected by the FIFO-earliest rule. -/
inductive RunRel : Sim → List Event → Sim → Prop where
  | nil (s : Sim) : RunRel s [] s
  | cons (s : Sim) (e : Event) (rest : List Event) (es : List Event) (s'' : Sim)
      (hpop : PopSpecP s.queue e rest)
      (hrun : RunRel (dispatch { s with queue := rest } e) es s'') :
      RunRel s (e :: es) s''

theorem popSpecP_mem (q : List Event) (e : Event) (rest : List Event)
    (h : PopSpecP q e rest) : e ∈ q := by
  obtain ⟨l, r, hq, -, -, -⟩ := h
  subst hq
  exact List.mem_append.mpr (Or.inr (List.mem_cons_self e r))

theorem popSpecP_min (q : List Event) (e : Event) (rest : List Event)
    (h : PopSpecP q e rest) : ∀ x ∈ q, e.fireTime ≤ x.fireTime := by
  obtain ⟨l, r, hq, -, hl, hr⟩ := h
  subst hq
  intro x hx
  rcases List.mem_append.mp hx with hx | hx
  · exact le_of_lt (hl x hx)
  · rcases List.mem_cons.mp hx with rfl | hx
    · exact le_refl _
    · exact hr x hx

/-- The FIFO-earliest rule is deterministic: any two selections from the
same pending list agree. -/
theorem popSpecP_unique : ∀ (q : List Event) (e1 : Event) (r1 : List Event)
    (e2 : Event) (r2 : List Event),
    PopSpecP q e1 r1 → PopSpecP q e2 r2 → e1 = e2 ∧ r1 = r2 := by
  intro q
  induction q with
  | nil =>
    intro e1 r1 e2 r2 h1 h2
    obtain ⟨l, r, hq, -, -, -⟩ := h1
    exact absurd hq (by simp)
  | cons x xs ih =>
    intro e1 r1 e2 r2 h1 h2
    obtain ⟨l1, r1', hq1, hr1, hl1, hg1⟩ := h1
    obtain ⟨l2, r2', hq2, hr2, hl2, hg2⟩ := h2
    cases l1 with
    | nil =>
      simp only [List.nil_append] at hq1 hr1
      injection hq1 with he1 hxs1
      cases l2 with
      | nil =>
        simp only [List.nil_append] at hq2 hr2
        injection hq2 with he2 hxs2
        subst hr1
        subst hr2
        exact ⟨he1.symm.trans he2, hxs1.symm.trans hxs2⟩
      | cons y l2' =>
        exfalso
        injection hq2 with hy hxs2
        have h2lt : e2.fireTime < x.fireTime := by
          have := hl2 y (List.mem_cons_self y l2')
          rw [← hy] at this
          exact this
        have h2mem : e2 ∈ r1' := by
          rw [← hxs1, hxs2]
          exact List.mem_append.mpr (Or.inr (List.mem_cons_self e2 r2'))
        have hle := hg1 e2 h2mem
        rw [← he1] at hle
        exact absurd hle (Nat.not_le.mpr h2lt)
    | cons y l1' =>
      injection hq1 with hy1 hxs1
      cases l2 with
      | nil =>
        exfalso
        simp only [List.nil_append] at hq2
        injection hq2 with he2 hxs2
        have h1lt : e1.fireTime < x.fireTime := by
          have := hl1 y (List.mem_cons_self y l1')
          rw [← hy1] at this
          exact this
        have h1mem : e1 ∈ r2' := by
          rw [← hxs2, hxs1]
          exact List.mem_append.mpr (Or.inr (List.mem_cons_self e1 r1'))
        have hle := hg2 e1 h1mem
        rw [← he2] at hle
        exact absurd hle (Nat.not_le.mpr h1lt)
      | cons z l2' =>
        injection hq2 with hz2 hxs2
        have p1 : PopSpecP xs e1 (l1' ++ r1') :=
          ⟨l1', r1', hxs1, rfl, fun w hw => hl1 w (List.mem_cons_of_mem y hw), hg1⟩
        have p2 : PopSpecP xs e2 (l2' ++ r2') :=
          ⟨l2', r2', hxs2, rfl, fun w hw => hl2 w (List.mem_cons_of_mem z hw), hg2⟩
        obtain ⟨hee, hrr⟩ := ih e1 (l1' ++ r1') e2 (l2' ++ r2') p1 p2
        refine ⟨hee, ?_⟩
        rw [hr1, hr2, List.cons_append, List.cons_append, ← hy1, ← hz2, hrr]

/-- Two complete runs to the same virtual time dispatch exactly the same
events and end in the same state. -/
theorem runRel_complete_unique (T : Time) :
    ∀ (es1 : List Event) (s : Sim) (es2 : List Event) (s1 s2 : Sim),
    RunRel s es1 s1 → RunRel s es2 s2 →
    (∀ e ∈ es1, e.fireTime ≤ T) → (∀ e ∈ s1.queue, T < e.fireTime) →
    (∀ e ∈ es2, e.fireTime ≤ T) → (∀ e ∈ s2.queue, T < e.fireTime) →
    es1 = es2 ∧ s1 = s2 := by
  intro es1
  induction es1 with
  | nil =>
    intro s es2 s1 s2 h1 h2 hd1 hp1 hd2 hp2
    cases h1
    cases h2 with
    | nil => exact ⟨rfl, rfl⟩
    | cons _ e rest es _ hpop hrun =>
      exfalso
      have he : e ∈ s.queue := popSpecP_mem s.queue e rest hpop
      have hT := hd2 e (List.mem_cons_self e es)
      exact absurd hT (Nat.not_le.mpr (hp1 e he))
  | cons e es ih =>
    intro s es2 s1 s2 h1 h2 hd1 hp1 hd2 hp2
    cases h1 with
    | cons _ _ rest _ _ hpop1 hrun1 =>
      cases h2 with
      | nil =>
        exfalso
        have he : e ∈ s.queue := popSpecP_mem s.queue e rest hpop1
        have hT := hd1 e (List.mem_cons_self e es)
        exact absurd hT (Nat.not_le.mpr (hp2 e he))
      | cons _ e2 rest2 es2' _ hpop2 hrun2 =>
        obtain ⟨hee, hrr⟩ := popSpecP_unique s.queue e rest e2 rest2 hpop1 hpop2
        subst hee
        subst hrr
        obtain ⟨hes, hss⟩ := ih (dispatch { s with queue := rest } e) es2' s1 s2
          hrun1 hrun2
          (fun x hx => hd1 x (List.mem_cons_of_mem e hx)) hp1
          (fun x hx => hd2 x (List.mem_cons_of_mem e hx)) hp2
        exact ⟨by rw [hes], hss⟩

/-- Claim C5: under the discrete-event model the executable scheduler
realizes the FIFO-earliest selection rule (ties by insertion order), and any
two complete runs of a fixed initial configuration to the same virtual time
`T` (all dispatched events fire no later than `T`, everything still pending
fires strictly later) yield identical `sendCount` values for every actor:
tie-breaking introduces no nondeterminism. -/
theorem claim_c5_fifo_determinism :
    (∀ (q : List Event) (e : Event) (rest : List Event),
      popNext? q = some (e, rest) → PopSpecP q e rest) ∧
    (∀ (s0 : Sim) (T : Time) (es1 es2 : List Event) (s1 s2 : Sim),
      RunRel s0 es1 s1 → RunRel s0 es2 s2 →
      (∀ e ∈ es1, e.fireTime ≤ T) → (∀ e ∈ s1.queue, T < e.fireTime) →
      (∀ e ∈ es2, e.fireTime ≤ T) → (∀ e ∈ s2.queue, T < e.fireTime) →
      ∀ a, (s1.actors a).sendCount = (s2.actors a).sendCount) := by
  constructor
  · intro q
    induction q with
    | nil =>
      intro e rest h
      simp [popNext?] at h
    | cons x xs ih =>
      intro e rest h
      simp only [popNext?] at h
      cases hr : popNext? xs with
      | none =>
        rw [hr] at h
        simp only [Option.some.injEq, Prod.mk.injEq] at h
        obtain ⟨he, hrest⟩ := h
        subst he
        subst hrest
        have hnil := (popNext?_eq_none xs).mp hr
        subst hnil
        exact ⟨[], [], rfl, rfl, by simp, by simp⟩
      | some pr =>
        obtain ⟨e', rest'⟩ := pr
        rw [hr] at h
        by_cases hle : x.fireTime ≤ e'.fireTime
        · simp only [hle, if_true, Option.some.injEq, Prod.mk.injEq] at h
          obtain ⟨he, hrest⟩ := h
          subst he
          subst hrest
          refine ⟨[], xs, rfl, rfl, by simp, ?_⟩
          intro w hw
          exact le_trans hle (popSpecP_min xs e' rest' (ih e' rest' hr) w hw)
        · simp only [hle, if_false, Option.some.injEq, Prod.mk.injEq] at h
          obtain ⟨he, hrest⟩ := h
          subst he
          obtain ⟨l, r, hq, hrest', hl, hr2⟩ := ih e' rest' hr
          refine ⟨x :: l, r, ?_, ?_, ?_, hr2⟩
          · rw [List.cons_append, ← hq]
          · rw [← hrest, hrest', List.cons_append]
          · intro w hw
            rcases List.mem_cons.mp hw with rfl | hw
            · exact Nat.not_le.mp hle
            · exact hl w hw
  · intro s0 T es1 es2 s1 s2 h1 h2 hd1 hp1 hd2 hp2 a
    obtain ⟨-, hss⟩ :=
      runRel_complete_unique T es1 s0 es2 s1 s2 h1 h2 hd1 hp1 hd2 hp2
    rw [hss]

/-- Witness for C5: the load-balanced topology run to virtual time 10 ms —
the firing and the three tied deliveries at t = 10 — compared with itself. -/
theorem claim_c5_fifo_determinism_witness :
    (((runSteps 4 (initSim lbTopo)).actors 0).sendCount
      = ((runSteps 4 (initSim lbTopo)).actors 0).sendCount) := by
  have hrun : RunRel (initSim lbTopo)
      [Event.mk 10 (EvKind.selfTrigger 0), Event.mk 10 (EvKind.message 1 "msg"),
       Event.mk 10 (EvKind.message 2 "msg"), Event.mk 10 (EvKind.message 3 "msg")]
      (runSteps 4 (initSim lbTopo)) := by
    refine RunRel.cons _ _ [] _ _
      (claim_c5_fifo_determinism.1 _ _ _ (by decide)) ?_
    refine RunRel.cons _ _
      [Event.mk 10 (EvKind.message 2 "msg"), Event.mk 10 (EvKind.message 3 "msg"),
       Event.mk 20 (EvKind.selfTrigger 0)] _ _
      (claim_c5_fifo_determinism.1 _ _ _ (by decide)) ?_
    refine RunRel.cons _ _
      [Event.mk 10 (EvKind.message 3 "msg"), Event.mk 20 (EvKind.selfTrigger 0)] _ _
      (claim_c5_fifo_determinism.1 _ _ _ (by decide)) ?_
    refine RunRel.cons _ _ [Event.mk 20 (EvKind.selfTrigger 0)] _ _
      (claim_c5_fifo_determinism.1 _ _ _ (by decide)) ?_
    exact RunRel.nil _
  exact claim_c5_fifo_determinism.2 (initSim lbTopo) 10 _ _ _ _ hrun hrun
    (by decide) (by decide) (by decide) (by decide) 0

/- ## C2: the burst generator -/

/-- The wired burst example (`omnetpp_burst` / `caf_burst` main). -/
def burstSim : Sim := initSim burstTopo

/-- The burst generator's actor state with counter `c`. -/
def genState (c : Nat) : ActorState :=
  { targets := [1], schedule := some ⟨1000, 1000, 10⟩, react := .ignore,
    sendCount := c, selfMsg := true }

/-- The processor's (receive-only) actor state. -/
def procState : ActorState :=
  { targets := [], schedule := none, react := .ignore, sendCount := 0,
    selfMsg := false }

/-- The observable actions of one burst period at timestamp `t`: ten send
attempts by the generator followed by ten arrivals at the processor. -/
def burstBlock (t : Time) : List Act :=
  List.replicate 10 (Act.sent 0 1 t) ++ List.replicate 10 (Act.arrived 1 "msg" t)

/-- Trace after `n` complete burst periods. -/
def burstTrace : Nat → List Act
  | 0 => []
  | Nat.succ n => burstTrace n ++ burstBlock (1000 * (n + 1))

/-- Count of arrivals recorded at actor `a`. -/
def countArrived (a : ActorId) (tr : List Act) : Nat :=
  tr.countP (fun act => match act with
    | .arrived dst _ _ => dst == a
    | _ => false)

/-- `burst_generator_actor::schedule_next_send` (caf_burst): the loop
`for (int i = 0; i < 10; i++) mail(batch_atom_v).delay(1000ms).send(this)`
creates ten separate future self-triggers from a single firing. -/
def burst_schedule_next_send (now : Time) (self : ActorId) : List Event :=
  (List.range 10).map (fun _ => Event.mk (now + 1000) (EvKind.selfTrigger self))

/-- A state with two identical outstanding self-triggers for the burst
generator at the same timestamp. -/
def twoTriggerSim : Sim :=
  { actors := (initSim burstTopo).actors,
    queue := [Event.mk 1000 (EvKind.selfTrigger 0), Event.mk 1000 (EvKind.selfTrigger 0)],
    now := 0,
    trace := [] }

theorem runSteps_succ (n : Nat) (s : Sim) : runSteps (n + 1) s = runSteps n (step s) :=
  rfl

theorem runSteps_add (a b : Nat) (s : Sim) :
    runSteps (a + b) s = runSteps b (runSteps a s) := by
  induction a generalizing s with
  | zero => rw [Nat.zero_add]; rfl
  | succ a ih =>
    have hn : a + 1 + b = (a + b) + 1 := by omega
    rw [hn, runSteps_succ, ih (step s)]
    rfl

/-- Draining `k` tied deliveries to the receive-only processor: each one is
popped individually (FIFO among the tie), ignored, and recorded as an
arrival; the later self-trigger stays pending. -/
theorem burst_drain (k : Nat) : ∀ (s : Sim) (t t' : Time), t ≤ t' →
    s.queue = List.replicate k (Event.mk t (EvKind.message 1 "msg"))
      ++ [Event.mk t' (EvKind.selfTrigger 0)] →
    s.actors 1 = procState →
    (runSteps k s).queue = [Event.mk t' (EvKind.selfTrigger 0)] ∧
    (runSteps k s).actors = s.actors ∧
    (runSteps k s).trace = s.trace ++ List.replicate k (Act.arrived 1 "msg" t) := by
  induction k with
  | zero =>
    intro s t t' htt hq h1
    simp only [List.replicate_zero, List.nil_append] at hq
    refine ⟨hq, rfl, ?_⟩
    rw [List.replicate_zero, List.append_nil]
    exact rfl
  | succ k ih =>
    intro s t t' htt hq h1
    rw [List.replicate_succ, List.cons_append] at hq
    have hmin : ∀ x ∈ List.replicate k (Event.mk t (EvKind.message 1 "msg"))
        ++ [Event.mk t' (EvKind.selfTrigger 0)],
        (Event.mk t (EvKind.message 1 "msg")).fireTime ≤ x.fireTime := by
      intro x hx
      rcases List.mem_append.mp hx with hx | hx
      · rw [List.eq_of_mem_replicate hx]
      · rw [List.mem_singleton.mp hx]
        exact htt
    have hstep := step_head s (Event.mk t (EvKind.message 1 "msg"))
      (List.replicate k (Event.mk t (EvKind.message 1 "msg"))
        ++ [Event.mk t' (EvKind.selfTrigger 0)]) hq hmin
    have hnom : reactMatches
        ((({ s with queue := List.replicate k (Event.mk t (EvKind.message 1 "msg"))
            ++ [Event.mk t' (EvKind.selfTrigger 0)], now := t } : Sim).actors 1).react)
        "msg" = false := by
      show reactMatches (s.actors 1).react "msg" = false
      rw [h1]
      rfl
    have hdisp : step s = { s with
        queue := List.replicate k (Event.mk t (EvKind.message 1 "msg"))
          ++ [Event.mk t' (EvKind.selfTrigger 0)],
        now := t,
        trace := s.trace ++ [Act.arrived 1 "msg" t] } := by
      rw [hstep]
      show handleInbound { s with
        queue := List.replicate k (Event.mk t (EvKind.message 1 "msg"))
          ++ [Event.mk t' (EvKind.selfTrigger 0)], now := t } 1 "msg" = _
      rw [handleInbound_nomatch _ 1 "msg" hnom]
    rw [runSteps_succ, hdisp]
    obtain ⟨hqk, hak, htk⟩ := ih { s with
        queue := List.replicate k (Event.mk t (EvKind.message 1 "msg"))
          ++ [Event.mk t' (EvKind.selfTrigger 0)],
        now := t,
        trace := s.trace ++ [Act.arrived 1 "msg" t] } t t' htt rfl h1
    refine ⟨hqk, hak, ?_⟩
    rw [htk]
    show (s.trace ++ [Act.arrived 1 "msg" t]) ++ _ = _
    rw [List.append_assoc]
    simp [List.replicate_succ]

/-- One complete burst period: firing the generator's self-trigger sends 10
messages (counter +10) and re-arms one period later; the ten tied deliveries
are then drained in FIFO order. -/
theorem burst_block_step (n : Nat) (s : Sim)
    (hq : s.queue = [Event.mk (1000 * (n + 1)) (EvKind.selfTrigger 0)])
    (h0 : s.actors 0 = genState (10 * n))
    (h1 : s.actors 1 = procState) :
    (runSteps 11 s).queue = [Event.mk (1000 * (n + 2)) (EvKind.selfTrigger 0)] ∧
    (runSteps 11 s).actors 0 = genState (10 * (n + 1)) ∧
    (runSteps 11 s).actors 1 = procState ∧
    (runSteps 11 s).trace = s.trace ++ burstBlock (1000 * (n + 1)) := by
  have hstep := step_head s (Event.mk (1000 * (n + 1)) (EvKind.selfTrigger 0)) [] hq
    (by simp)
  have hsch : ((({ s with queue := [], now := 1000 * (n + 1) } : Sim)).actors 0).schedule
      = some ⟨1000, 1000, 10⟩ := by
    show (s.actors 0).schedule = _
    rw [h0]
    rfl
  have hrep : (List.replicate 10 ([1] : List ActorId)).flatten
      = List.replicate 10 (1 : ActorId) := by decide
  have hlift : step s = handleSelfMsg { s with queue := [], now := 1000 * (n + 1) } 0 := by
    rw [hstep]
    rfl
  rw [handleSelfMsg_some { s with queue := [], now := 1000 * (n + 1) } 0
    ⟨1000, 1000, 10⟩ hsch] at hlift
  have hfq : (step s).queue
      = List.replicate 10 (Event.mk (1000 * (n + 1)) (EvKind.message 1 "msg"))
        ++ [Event.mk (1000 * (n + 1) + 1000) (EvKind.selfTrigger 0)] := by
    rw [hlift]
    simp [h0, genState, hrep, List.map_replicate]
  have hf0 : (step s).actors 0 = genState (10 * n + 10) := by
    rw [hlift]
    simp [h0, genState]
  have hf1 : (step s).actors 1 = procState := by
    rw [hlift]
    simp [h1]
  have hft : (step s).trace
      = s.trace ++ List.replicate 10 (Act.sent 0 1 (1000 * (n + 1))) := by
    rw [hlift]
    simp [h0, genState, hrep, List.map_replicate]
  obtain ⟨dq, da, dt⟩ := burst_drain 10 (step s) (1000 * (n + 1))
    (1000 * (n + 1) + 1000) (Nat.le_add_right _ _) hfq hf1
  have h11 : runSteps 11 s = runSteps 10 (step s) := rfl
  refine ⟨?_, ?_, ?_, ?_⟩
  · rw [h11, dq]
    have : 1000 * (n + 1) + 1000 = 1000 * (n + 2) := by ring
    rw [this]
  · rw [h11]
    rw [show ((runSteps 10 (step s)).actors 0) = ((step s).actors 0) from congrFun da 0]
    rw [hf0]
    have : 10 * n + 10 = 10 * (n + 1) := by ring
    rw [this]
  · rw [h11]
    rw [show ((runSteps 10 (step s)).actors 1) = ((step s).actors 1) from congrFun da 1]
    exact hf1
  · rw [h11, dt, hft, List.append_assoc]
    rfl

/-- State of the burst simulation after `n` complete periods (`11 n` steps:
one firing plus ten deliveries per period). -/
theorem burst_run_characterization (n : Nat) :
    (runSteps (11 * n) burstSim).queue
      = [Event.mk (1000 * (n + 1)) (EvKind.selfTrigger 0)] ∧
    (runSteps (11 * n) burstSim).actors 0 = genState (10 * n) ∧
    (runSteps (11 * n) burstSim).actors 1 = procState ∧
    (runSteps (11 * n) burstSim).trace = burstTrace n := by
  induction n with
  | zero =>
    refine ⟨by decide, by decide, by decide, rfl⟩
  | succ n ih =>
    obtain ⟨hq, h0, h1, ht⟩ := ih
    have hmul : 11 * (n + 1) = 11 * n + 11 := by ring
    rw [hmul, runSteps_add]
    obtain ⟨bq, b0, b1, bt⟩ := burst_block_step n (runSteps (11 * n) burstSim) hq h0 h1
    refine ⟨bq, b0, b1, ?_⟩
    rw [bt, ht]
    rfl

theorem countArrived_append (a : ActorId) (t1 t2 : List Act) :
    countArrived a (t1 ++ t2) = countArrived a t1 + countArrived a t2 := by
  simp [countArrived, List.countP_append]

theorem countArrived_sent_replicate (a src dst : ActorId) (t : Time) (n : Nat) :
    countArrived a (List.replicate n (Act.sent src dst t)) = 0 := by
  induction n with
  | zero => rfl
  | succ n ih =>
    simp only [List.replicate_succ, countArrived, List.countP_cons] at ih ⊢
    simp [ih]

theorem countArrived_arrived_replicate (a : ActorId) (k : String) (t : Time) (n : Nat) :
    countArrived a (List.replicate n (Act.arrived a k t)) = n := by
  induction n with
  | zero => rfl
  | succ n ih =>
    simp only [List.replicate_succ, countArrived, List.countP_cons] at ih ⊢
    simpa using ih

/-- Claim C2: in the burst topology (`burstCount = 10`, one target, 1000 ms
period), every firing of the generator increments its `sendCount` by exactly
10 (so it is `10 n` after `n` periods), each period appends exactly one
burst block to the trace — exactly 10 arrivals at the processor per period —
and outstanding self-triggers are delivered one at a time, never coalesced:
the CAF variant schedules 10 separate future triggers from one firing, two
identical tied triggers produce two full firings, and dispatching always
consumes exactly one pending event. -/
theorem claim_c2_burst_generator :
    (∀ (n : Nat), ((runSteps (11 * n) burstSim).actors 0).sendCount = 10 * n) ∧
    (∀ (n : Nat), ((step (runSteps (11 * n) burstSim)).actors 0).sendCount
        = ((runSteps (11 * n) burstSim).actors 0).sendCount + 10) ∧
    (∀ (n : Nat), (runSteps (11 * (n + 1)) burstSim).trace
        = (runSteps (11 * n) burstSim).trace ++ burstBlock (1000 * (n + 1))) ∧
    (∀ (t : Time), countArrived 1 (burstBlock t) = 10) ∧
    ((burst_schedule_next_send 0 0).length = 10 ∧
      ((runSteps 2 twoTriggerSim).actors 0).sendCount = 20) ∧
    (∀ (q : List Event) (e : Event) (rest : List Event),
      popNext? q = some (e, rest) → q.length = rest.length + 1) := by
  refine ⟨?_, ?_, ?_, ?_, ⟨by decide, by decide⟩, ?_⟩
  · intro n
    rw [(burst_run_characterization n).2.1]
    rfl
  · intro n
    obtain ⟨hq, h0, h1, ht⟩ := burst_run_characterization n
    have hstep := step_head (runSteps (11 * n) burstSim)
      (Event.mk (1000 * (n + 1)) (EvKind.selfTrigger 0)) [] hq (by simp)
    have hsch : ((({ runSteps (11 * n) burstSim with
        queue := [], now := 1000 * (n + 1) } : Sim)).actors 0).schedule
        = some ⟨1000, 1000, 10⟩ := by
      show ((runSteps (11 * n) burstSim).actors 0).schedule = _
      rw [h0]
      rfl
    have hlift : step (runSteps (11 * n) burstSim)
        = handleSelfMsg { runSteps (11 * n) burstSim with
            queue := [], now := 1000 * (n + 1) } 0 := by
      rw [hstep]
      rfl
    rw [hlift, handleSelfMsg_some _ 0 ⟨1000, 1000, 10⟩ hsch]
    simp [h0, genState]
  · intro n
    rw [(burst_run_characterization (n + 1)).2.2.2,
      (burst_run_characterization n).2.2.2]
    rfl
  · intro t
    rw [burstBlock, countArrived_append, countArrived_sent_replicate,
      countArrived_arrived_replicate]
  · intro q e rest h
    rw [(popNext?_perm q e rest h).length_eq]
    rfl

/-- Witness for C2: dispatching from a singleton pending set consumes
exactly that one event. -/
theorem claim_c2_burst_generator_witness :
    ([Event.mk 1000 (EvKind.selfTrigger 0)] : List Event).length
      = ([] : List Event).length + 1 :=
  claim_c2_burst_generator.2.2.2.2.2 [Event.mk 1000 (EvKind.selfTrigger 0)]
    (Event.mk 1000 (EvKind.selfTrigger 0)) [] (by decide)
